import Mathlib

/-!
Verification development for the rdfoothills RDF-format toolkit.

Shallow embedding of:
 * the MIME registry (`src/crates/mime/src/mime.rs`),
 * the converter registry and dispatch (`src/crates/conversion/src/conversion/`),
 * the cache layout and downloader classification (`src/src/cache.rs`, `src/src/util.rs`,
   `src/crates/base/src/util.rs`).

External crates are modelled as follows:
 * `mediatype::MediaType` is a record of lowercased type, subtype, optional
   structured-syntax suffix (the part of the subtype after its last plus sign,
   split off while parsing, as the mediatype crate does) and parameters; the
   crate compares and hashes media types field-wise and case-insensitively, so
   the hash-map lookup of the registry is modelled as structural equality of
   this record (the repository file implementing `hasher::hash_num` is not
   present under `src/`; per the spec it is a stable hash used only as a
   lookup key, which we take to be collision-free on the registry).
 * `regex` replacement of the single-character class `[^a-zA-Z0-9]` is a
   character-by-character map.
 * `infer::get` content sniffing is an oracle input (the sniffed MIME string,
   if any) to the downloader classification.
-/

deriving instance DecidableEq for Except

namespace Rdfoothills

/-- The RDF serialization format enumeration `Type` of
`src/crates/mime/src/mime.rs` (named `Ty` here because `Type` is reserved). -/
inductive Ty
  | BinaryRdf
  | Csvw
  | Hdt
  | HexTuples
  | Html
  | JsonLd
  | Manchester
  | Microdata
  | N3
  | NdJsonLd
  | NQuads
  | NQuadsStar
  | NTriples
  | NTriplesStar
  | OwlFunctional
  | OwlXml
  | RdfA
  | RdfJson
  | RdfXml
  | TriG
  | TriGStar
  | TriX
  | Tsvw
  | Turtle
  | TurtleStar
  | YamlLd
  deriving DecidableEq, Fintype

/-- Model of `mediatype::MediaType`: lowercased main type, subtype, optional
suffix (after the last plus sign of the subtype) and parameters. -/
structure MediaType where
  ty : String
  subty : String
  sfx : Option String
  params : List (String × String)
  deriving DecidableEq

/-- Essence of a media type: the same type, subtype and suffix with the
parameters dropped (`mediatype::MediaType::essence`). -/
def MediaType.essence (m : MediaType) : MediaType :=
  { m with params := [] }

/-- A media type with no suffix and no parameters. -/
def mkMT (t s : String) : MediaType := ⟨t, s, none, []⟩

/-- A media type with a suffix and no parameters. -/
def mkMTs (t s sf : String) : MediaType := ⟨t, s, some sf, []⟩

/-- ASCII lower-casing of one character. -/
def asciiLower (c : Char) : Char :=
  if 'A' ≤ c ∧ c ≤ 'Z' then Char.ofNat (c.toNat + 32) else c

/-- ASCII lower-casing of a character list. -/
def lowerChars (cs : List Char) : List Char := cs.map asciiLower

/-- Restricted-token characters accepted inside media-type names
(RFC 7230 tchar, without the quote and backtick characters, which occur in
none of the registry strings). -/
def tchar (c : Char) : Bool :=
  c.isAlphanum || "!#$%&*+-.^_|~".toList.contains c

/-- Split a character list on a separator character; always nonempty. -/
def splitOnChar (sep : Char) : List Char → List (List Char)
  | [] => [[]]
  | c :: cs =>
    if c = sep then [] :: splitOnChar sep cs
    else
      match splitOnChar sep cs with
      | [] => [[c]]
      | g :: gs => (c :: g) :: gs

/-- Split a subtype at its last plus sign: returns the part before it and,
when a plus sign occurs, the part after it. -/
def splitSuffix : List Char → List Char × Option (List Char)
  | [] => ([], none)
  | c :: cs =>
    match splitSuffix cs with
    | (rest, some sfx) => (c :: rest, some sfx)
    | (rest, none) => if c = '+' then ([], some rest) else (c :: rest, none)

/-- Drop spaces and horizontal tabs from both ends. -/
def trimOws (cs : List Char) : List Char :=
  ((cs.dropWhile fun c => c = ' ' ∨ c = '\t').reverse.dropWhile
    fun c => c = ' ' ∨ c = '\t').reverse

/-- Parse one `key=value` media-type parameter. -/
def parseParam (cs : List Char) : Option (String × String) :=
  let t := trimOws cs
  let key := t.takeWhile (· ≠ '=')
  let rest := t.dropWhile (· ≠ '=')
  match rest with
  | '=' :: v =>
    if key ≠ [] ∧ key.all tchar ∧ v ≠ [] then
      some (⟨lowerChars key⟩, ⟨lowerChars v⟩)
    else none
  | _ => none

/-- Model of `mediatype::MediaType::parse`: `type/subtype(+suffix)` followed
by optional `;key=value` parameters. Returns `none` on malformed input
(the crate returns `MediaTypeError`). -/
def mediaTypeParse (s : String) : Option MediaType :=
  match splitOnChar ';' s.data with
  | [] => none
  | ess :: paramParts =>
    match splitOnChar '/' ess with
    | [t, sub] =>
      if t ≠ [] ∧ sub ≠ [] ∧ t.all tchar ∧ sub.all tchar then
        let (subty, sfx) := splitSuffix sub
        if subty = [] ∨ sfx = some [] then none
        else
          match paramParts.mapM parseParam with
          | none => none
          | some ps =>
            some ⟨⟨lowerChars t⟩, ⟨lowerChars subty⟩,
                  sfx.map fun x => ⟨lowerChars x⟩, ps⟩
      else none
    | _ => none

/-- Rough rendering of a media type, used only inside error payloads. -/
def renderMT (m : MediaType) : String :=
  m.ty ++ "/" ++ m.subty ++ (match m.sfx with | some x => "+" ++ x | none => "")

/-- The parse-error enumeration `ParseError` of `src/crates/mime/src/mime.rs`. -/
inductive ParseError
  | UnrecognizedContentType (s : String)
  | CouldBeAny (s : String)
  | InvalidFormat (s : String)
  | UnrecognizedFileExtension (s : String)
  | NoFileExtension (p : String)
  | NoKnownFileExtensionAndReadError (p e : String)
  | UnrecognizedContent (s : String)
  | UnidentifiedContent
  deriving DecidableEq

/-- The `MEDIA_TYPE_2_MIME` registry of `src/crates/mime/src/mime.rs`,
each entry written as the Rust constant constructs it (note in particular
that `MEDIA_TYPE_ND_JSON_LD` is built with the unsplit name `x-ld+ndjson`
and no suffix, that `MEDIA_TYPE_JSON_LD_2` is `text/json-ld`, and that
`MEDIA_TYPE_TRIG` is `application/trig`). -/
def mediaTypeRegistry : List (MediaType × Ty) :=
  [ (mkMT "application" "x-binary-rdf", .BinaryRdf),
    (mkMT "text" "csv", .Csvw),
    (mkMTs "application" "hex" "x-ndjson", .HexTuples),
    (mkMT "text" "html", .Html),
    (mkMTs "application" "xhtml" "xml", .Html),
    (mkMTs "application" "ld" "json", .JsonLd),
    (mkMT "text" "json-ld", .JsonLd),
    (mkMT "text" "owl-manchester", .Manchester),
    (mkMT "text" "n3", .N3),
    (mkMTs "text" "rdf" "n3", .N3),
    (mkMT "application" "x-ld+ndjson", .NdJsonLd),
    (mkMT "application" "n-quads", .NQuads),
    (mkMT "text" "x-nquads", .NQuads),
    (mkMT "text" "n-quads", .NQuads),
    (mkMT "application" "n-quadsstar", .NQuadsStar),
    (mkMT "application" "n-triples", .NTriples),
    (mkMT "application" "n-triplesstar", .NTriplesStar),
    (mkMTs "application" "owl" "functional", .OwlFunctional),
    (mkMTs "application" "owl" "xml", .OwlXml),
    (mkMTs "application" "rdf" "json", .RdfJson),
    (mkMTs "application" "rdf" "xml", .RdfXml),
    (mkMT "application" "xml", .RdfXml),
    (mkMT "text" "xml", .RdfXml),
    (mkMT "application" "trig", .TriG),
    (mkMT "application" "x-trig", .TriG),
    (mkMT "application" "x-trigstar", .TriGStar),
    (mkMT "application" "trix", .TriX),
    (mkMT "text" "tab-separated-values", .Tsvw),
    (mkMT "text" "turtle", .Turtle),
    (mkMT "application" "x-turtle", .Turtle),
    (mkMT "text" "x-turtlestar", .TurtleStar),
    (mkMT "application" "x-turtlestar", .TurtleStar),
    (mkMTs "application" "ld" "yaml", .YamlLd) ]

/-- First registry entry equal to the looked-up media type; the Rust code
keys a hash map by `hasher::hash_num` of the media type, modelled here as
structural equality (the registry has no duplicate keys). -/
def tableLookup : List (MediaType × Ty) → MediaType → Option Ty
  | [], _ => none
  | (k, v) :: rest, mt => if k = mt then some v else tableLookup rest mt

/-- `media_type2type` of `src/crates/mime/src/mime.rs`. -/
def media_type2type (mt : MediaType) : Option Ty :=
  tableLookup mediaTypeRegistry mt

namespace Ty

/-- `Type::from_media_type`: `text/plain` (by essence) is rejected as
could-be-any; otherwise the registry decides. -/
def from_media_type (mt : MediaType) : Except ParseError Ty :=
  if mt.essence = mkMT "text" "plain" then .error (.CouldBeAny (renderMT mt))
  else
    match media_type2type mt with
    | some t => .ok t
    | none => .error (.UnrecognizedContentType (renderMT mt))

/-- `Type::from_mime_type`: parse a single MIME string, then identify it. -/
def from_mime_type (s : String) : Except ParseError Ty :=
  match mediaTypeParse s with
  | none => .error (.InvalidFormat s)
  | some mt => from_media_type mt

/-- The element loop of `<Type as FromStr>::from_str`: each comma-separated
element is cut at its first semicolon and parsed; the first success wins. -/
def fromStrAux : List (List Char) → Option Ty
  | [] => none
  | e :: rest =>
    match from_mime_type ⟨e.takeWhile (· ≠ ';')⟩ with
    | .ok t => some t
    | .error _ => fromStrAux rest

/-- `<Type as FromStr>::from_str`: try each comma-separated element, and if
none parses, retry the whole string. -/
def from_str (s : String) : Except ParseError Ty :=
  match fromStrAux (splitOnChar ',' s.data) with
  | some t => .ok t
  | none => from_mime_type s

/-- `Type::mime_type`: the canonical MIME string (note `Hdt` shares the
RDF/XML arm). -/
def mime_type : Ty → String
  | .BinaryRdf => "application/x-binary-rdf"
  | .Csvw => "text/csv"
  | .HexTuples => "application/hex+x-ndjson"
  | .Html => "text/html"
  | .JsonLd => "application/ld+json"
  | .Manchester => "text/owl-manchester"
  | .Microdata => "application/x-microdata"
  | .N3 => "text/rdf+n3"
  | .NdJsonLd => "application/x-ld+ndjson"
  | .NQuads => "application/n-quads"
  | .NQuadsStar => "application/n-quadsstar"
  | .NTriples => "application/n-triples"
  | .NTriplesStar => "application/n-triplesstar"
  | .OwlFunctional => "text/owl-functional"
  | .OwlXml => "application/owl+xml"
  | .RdfA => "text/html"
  | .RdfJson => "application/rdf+json"
  | .RdfXml | .Hdt => "application/rdf+xml"
  | .TriG => "text/trig"
  | .TriGStar => "application/x-trigstar"
  | .TriX => "application/trix"
  | .Tsvw => "text/tab-separated-values"
  | .Turtle => "text/turtle"
  | .TurtleStar => "text/x-turtlestar"
  | .YamlLd => "application/ld+yaml"

/-- `Type::mime_types`: all accepted MIME strings, canonical first. -/
def mime_types : Ty → List String
  | .BinaryRdf => ["application/x-binary-rdf"]
  | .Csvw => ["text/csv"]
  | .HexTuples => ["application/hex+x-ndjson"]
  | .Html => ["text/html", "application/xhtml+xml"]
  | .JsonLd => ["application/ld+json", "application/json-ld"]
  | .Manchester => ["text/owl-manchester"]
  | .Microdata => ["application/x-microdata"]
  | .N3 => ["text/rdf+n3", "text/n3"]
  | .NdJsonLd => ["application/x-ld+ndjson"]
  | .NQuads => ["application/n-quads"]
  | .NQuadsStar => ["application/n-quadsstar"]
  | .NTriples => ["application/n-triples"]
  | .NTriplesStar => ["application/n-triplesstar"]
  | .OwlFunctional => ["text/owl-functional"]
  | .OwlXml => ["application/owl+xml"]
  | .RdfA => ["text/html"]
  | .RdfJson => ["application/rdf+json"]
  | .RdfXml | .Hdt => ["application/rdf+xml"]
  | .TriG => ["text/trig"]
  | .TriGStar => ["application/x-trigstar"]
  | .TriX => ["application/trix"]
  | .Tsvw => ["text/tab-separated-values"]
  | .Turtle => ["text/turtle"]
  | .TurtleStar => ["text/x-turtlestar", "application/x-turtlestar"]
  | .YamlLd => ["application/ld+yaml"]

/-- `Type::from_file_ext`: case-insensitive file-extension lookup. -/
def from_file_ext (s : String) : Except ParseError Ty :=
  match (⟨lowerChars s.data⟩ : String) with
  | "brf" => .ok .BinaryRdf
  | "csvw" | "csv" => .ok .Csvw
  | "hdt" => .ok .Hdt
  | "hext" => .ok .HexTuples
  | "html" | "xhtml" | "htm" => .ok .Html
  | "jsonld" => .ok .JsonLd
  | "omn" => .ok .Manchester
  | "n3" => .ok .N3
  | ".ndjsonld" | ".jsonl" | ".ndjson" => .ok .NdJsonLd
  | "nq" => .ok .NQuads
  | "nqs" => .ok .NQuadsStar
  | "nt" => .ok .NTriples
  | "nts" => .ok .NTriplesStar
  | "ofn" => .ok .OwlFunctional
  | "owx" => .ok .OwlXml
  | "rj" => .ok .RdfJson
  | "rdf" | "rdfs" | "owl" | "xml" => .ok .RdfXml
  | "trig" => .ok .TriG
  | "trigs" => .ok .TriGStar
  | "trix" => .ok .TriX
  | "tsvw" | "tsv" => .ok .Tsvw
  | "ttl" => .ok .Turtle
  | "ttls" => .ok .TurtleStar
  | "yamlld" | "ymlld" => .ok .YamlLd
  | _ => .error (.UnrecognizedFileExtension s)

/-- `Type::file_ext`: canonical file extension (note `Html`, `Microdata` and
`RdfA` share one arm, and `NdJsonLd` keeps the leading dot of its constant). -/
def file_ext : Ty → String
  | .BinaryRdf => "brf"
  | .Csvw => "csvw"
  | .Hdt => "hdt"
  | .HexTuples => "hext"
  | .Html | .Microdata | .RdfA => "html"
  | .JsonLd => "jsonld"
  | .Manchester => "omn"
  | .N3 => "n3"
  | .NdJsonLd => ".ndjsonld"
  | .NQuads => "nq"
  | .NQuadsStar => "nqs"
  | .NTriples => "nt"
  | .NTriplesStar => "nts"
  | .OwlFunctional => "ofn"
  | .OwlXml => "owx"
  | .RdfJson => "rj"
  | .RdfXml => "rdf"
  | .TriG => "trig"
  | .TriGStar => "trigs"
  | .TriX => "trix"
  | .Tsvw => "tsvw"
  | .Turtle => "ttl"
  | .TurtleStar => "ttls"
  | .YamlLd => "yamlld"

/-- `Type::file_exts`: all accepted file extensions. -/
def file_exts : Ty → List String
  | .BinaryRdf => ["brf"]
  | .Csvw => ["csvw", "csv"]
  | .Hdt => ["hdt"]
  | .HexTuples => ["hext"]
  | .Html => ["html", "xhtml", "htm"]
  | .JsonLd => ["jsonld"]
  | .Manchester => ["omn"]
  | .Microdata => ["html", "xhtml", "htm"]
  | .N3 => ["n3"]
  | .NdJsonLd => [".ndjsonld", ".jsonl", ".ndjson"]
  | .NQuads => ["nq"]
  | .NQuadsStar => ["nqs"]
  | .NTriples => ["nt"]
  | .NTriplesStar => ["nts"]
  | .OwlFunctional => ["ofn"]
  | .OwlXml => ["owx", "xml"]
  | .RdfA => ["html", "xhtml", "htm"]
  | .RdfJson => ["rj"]
  | .RdfXml => ["rdf", "rdfs", "owl", "xml"]
  | .TriG => ["trig"]
  | .TriGStar => ["trigs"]
  | .TriX => ["trix", "xml"]
  | .Tsvw => ["tsvw", "tsv"]
  | .Turtle => ["ttl"]
  | .TurtleStar => ["ttls"]
  | .YamlLd => ["yamlld", "ymlld"]

/-- `Type::is_machine_readable`: false only for HTML. -/
def is_machine_readable : Ty → Bool
  | .Html => false
  | _ => true

/-- `Type::star`: whether the format supports RDF-star syntax. -/
def star : Ty → Bool
  | .BinaryRdf | .NTriplesStar | .TriGStar | .TurtleStar => true
  | _ => false

/-- `Type::from_content`, with the `infer::get` sniffing oracle made an
explicit input: the sniffed MIME string (if any) is parsed and identified. -/
def from_content (sniffed : Option String) : Except ParseError Ty :=
  match sniffed with
  | none => .error .UnidentifiedContent
  | some m =>
    match mediaTypeParse m with
    | none => .error (.UnrecognizedContent m)
    | some mt => from_media_type mt

end Ty

/-! ## Converter registry and dispatch (`src/crates/conversion/src/conversion/`) -/

/-- `conversion::Quality`, ordered best first. -/
inductive Quality
  | PreservesComments
  | PreservesFormatting
  | PreservesOrder
  | Base
  | Prefixes
  | Data
  deriving DecidableEq

/-- Rank of a quality in the derived Rust `Ord` (declaration order). -/
def Quality.rank : Quality → Nat
  | .PreservesComments => 0
  | .PreservesFormatting => 1
  | .PreservesOrder => 2
  | .Base => 3
  | .Prefixes => 4
  | .Data => 5

/-- `conversion::Priority`. -/
inductive Priority
  | High
  | Mid
  | Low
  deriving DecidableEq

/-- Rank of a priority in the derived Rust `Ord` (declaration order). -/
def Priority.rank : Priority → Nat
  | .High => 0
  | .Mid => 1
  | .Low => 2

/-- `conversion::Type` of converters (named `ConvKind` here). -/
inductive ConvKind
  | Native
  | Cli
  | NetworkService
  deriving DecidableEq

/-- Rank of a converter kind in the derived Rust `Ord` (declaration order). -/
def ConvKind.rank : ConvKind → Nat
  | .Native => 0
  | .Cli => 1
  | .NetworkService => 2

/-- `conversion::Info`: the converter characteristics whose derived
lexicographic order drives dispatch. -/
structure Info where
  quality : Quality
  priority : Priority
  typ : ConvKind
  name : String
  deriving DecidableEq

/-- Byte-wise lexicographic string comparison (Rust `&str` ordering; all
converter names are ASCII). -/
def charsLe : List Char → List Char → Bool
  | [], _ => true
  | _ :: _, [] => false
  | a :: as, b :: bs =>
    if a.toNat < b.toNat then true
    else if b.toNat < a.toNat then false
    else charsLe as bs

/-- The derived lexicographic `Ord` on `Info` as a total `≤` test. -/
def infoLe (a b : Info) : Bool :=
  if a.quality.rank < b.quality.rank then true
  else if b.quality.rank < a.quality.rank then false
  else if a.priority.rank < b.priority.rank then true
  else if b.priority.rank < a.priority.rank then false
  else if a.typ.rank < b.typ.rank then true
  else if b.typ.rank < a.typ.rank then false
  else charsLe a.name.data b.name.data

/-- The converter implementations registered in `CONVERTERS`
(`src/crates/conversion/src/conversion/mod.rs`); the OxRDF I/O backend is
behind the `oxrdfio` cargo feature. -/
inductive ConverterId
  | rdfx
  | rdfconvert
  | pylode
  | oxrdf
  deriving DecidableEq

/-- Each backend's `info()`. -/
def ConverterId.info : ConverterId → Info
  | .rdfx => ⟨.Data, .Low, .Cli, "rdfx"⟩
  | .rdfconvert => ⟨.Prefixes, .Mid, .Cli, "rdf-convert"⟩
  | .pylode => ⟨.Data, .Mid, .Cli, "pyLODE"⟩
  | .oxrdf => ⟨.Data, .High, .Native, "OxRDF I/O"⟩

/-- `to_rdflib_format` of `src/crates/conversion/src/conversion/mod.rs`
(note `OwlXml` and `OwlFunctional` are in the `None` arm). -/
def to_rdflib_format : Ty → Option String
  | .HexTuples => some "hext"
  | .JsonLd => some "json-ld"
  | .N3 => some "n3"
  | .NQuads => some "nquads"
  | .NTriples => some "nt"
  | .TriG => some "trig"
  | .RdfXml => some "xml"
  | .TriX => some "trix"
  | .Turtle => some "turtle"
  | _ => none

/-- `rdfx::Converter::supports_format`: the formats the rdfx backend claims
(note it claims `OwlXml`). -/
def rdfx_supports_format : Ty → Bool
  | .N3 | .JsonLd | .NTriples | .OwlXml | .RdfXml | .Turtle => true
  | _ => false

/-- `oxrdfio::Converter::to_oxrdf_format` collapsed to its domain
(`supports_format` only asks `is_some`). -/
def oxrdf_supports_format : Ty → Bool
  | .N3 | .NQuads | .NQuadsStar | .NTriples | .NTriplesStar
  | .OwlXml | .RdfXml | .TriG | .TriGStar | .Turtle | .TurtleStar => true
  | _ => false

/-- Each backend's `supports(from, to)`. -/
def ConverterId.supports : ConverterId → Ty → Ty → Bool
  | .rdfx, f, t => rdfx_supports_format f && rdfx_supports_format t
  | .rdfconvert, f, t => (to_rdflib_format f).isSome && (to_rdflib_format t).isSome
  | .pylode, f, t => t = Ty.Html && (to_rdflib_format f).isSome
  | .oxrdf, f, t => oxrdf_supports_format f && oxrdf_supports_format t

/-- The external command each backend spawns for `is_available`; the OxRDF
backend is in-process and always available. -/
def ConverterId.cliCmd : ConverterId → Option String
  | .rdfx => some "rdfx"
  | .rdfconvert => some "rdf-convert"
  | .pylode => some "pylode"
  | .oxrdf => none

/-- `is_available`, with the environment (which commands can be spawned)
passed in as the oracle `avail`. -/
def ConverterId.is_available (avail : String → Bool) (c : ConverterId) : Bool :=
  match c.cliCmd with
  | some cmd => avail cmd
  | none => true

/-- Stable insertion of one converter into an `infoLe`-sorted list. -/
def insertByInfo (x : ConverterId) : List ConverterId → List ConverterId
  | [] => [x]
  | y :: ys => if infoLe y.info x.info then y :: insertByInfo x ys else x :: y :: ys

/-- Stable insertion sort by `infoLe` (models `Vec::sort` on the registry). -/
def sortByInfo : List ConverterId → List ConverterId
  | [] => []
  | x :: xs => insertByInfo x (sortByInfo xs)

/-- The `CONVERTERS` registry: the backends pushed in source order and then
sorted by `info()`; the OxRDF backend is present when its feature is on. -/
def converters (oxEnabled : Bool) : List ConverterId :=
  sortByInfo ([.rdfx, .rdfconvert, .pylode] ++ if oxEnabled then [.oxrdf] else [])

/-- `conversion::OntFile`. -/
structure OntFile where
  file : String
  mime_type : Ty
  deriving DecidableEq

/-- `conversion::Error` (payload strings are carried only where a claim
needs the constructor). -/
inductive ConvError
  | NonMachineReadableSource (frm : Ty)
  | NoConverter (frm toT : Ty)
  | ExtCmdFailedToInvoke (cmd task : String)
  | ExtCmdUnsuccessful (cmd task : String) (exitCode : Int) (stderrOut : String)
  | NoConversionRequired
  | SyntaxErr (msg : String)
  | IoErr
  deriving DecidableEq

/-- `select_converter` of `src/crates/conversion/src/conversion/mod.rs`:
the machine-readability of the source is checked first, then equality of the
two formats, then the sorted registry is scanned for the first supporting and
available backend. -/
def select_converter (avail : String → Bool) (oxEnabled : Bool)
    (fromF toF : OntFile) : Except ConvError ConverterId :=
  if ¬ fromF.mime_type.is_machine_readable then
    .error (.NonMachineReadableSource fromF.mime_type)
  else if fromF.mime_type = toF.mime_type then
    .error .NoConversionRequired
  else
    match (converters oxEnabled).find?
        (fun c => c.supports fromF.mime_type toF.mime_type &&
                  c.is_available avail) with
    | some c => .ok c
    | none => .error (.NoConverter fromF.mime_type toF.mime_type)

/-- The argument vector the rdfx backend builds in its `convert_args!` macro;
`none` models the `expect` panic taken when `to_rdflib_format` of the target
is `None`. -/
def rdfx_convert_args (fromF toF : OntFile) : Option (List String) :=
  (to_rdflib_format toF.mime_type).map fun f =>
    ["convert", "--format", f, "--output", toF.file, fromF.file]

/-! ## Cache layout (`src/src/cache.rs`, `src/src/util.rs`,
`src/crates/base/src/util.rs`) -/

/-- Whether a character matches `[a-zA-Z0-9]` (the complement of the
`NON_BASIC_CHARS` regex class). -/
def isBasicChar (c : Char) : Bool :=
  ('a' ≤ c && c ≤ 'z') || ('A' ≤ c && c ≤ 'Z') || ('0' ≤ c && c ≤ '9')

/-- `NON_BASIC_CHARS.replace_all(url, "_")`: each character outside
`[a-zA-Z0-9]` is one single-character match, replaced by one underscore. -/
def replaceNonBasic : List Char → List Char
  | [] => []
  | c :: cs => (if isBasicChar c then c else '_') :: replaceNonBasic cs

/-- `url2fname` of `src/src/util.rs` (also inlined in `src/src/main.rs`):
replace every non-alphanumeric character by an underscore, with no
collapsing of runs. This is the version `ont_dir` uses via
`use crate::util::*`. -/
def url2fname (s : String) : String := ⟨replaceNonBasic s.data⟩

/-- Dropping a matching run never lengthens a list. -/
theorem dropWhileLenLe (p : α → Bool) :
    ∀ l : List α, (l.dropWhile p).length ≤ l.length
  | [] => Nat.le_refl _
  | c :: cs => by
    by_cases h : p c = true
    · simpa [List.dropWhile, h] using Nat.le_succ_of_le (dropWhileLenLe p cs)
    · simp [List.dropWhile, h]

/-- `MULTI_UNDERSCORES.replace_all(s, "_")`: every run of two or more
underscores becomes a single underscore. -/
def collapseUnders : List Char → List Char
  | [] => []
  | c :: cs =>
    if c = '_' then '_' :: collapseUnders (cs.dropWhile (· = '_'))
    else c :: collapseUnders cs
  termination_by cs => cs.length
  decreasing_by
    · exact Nat.lt_succ_of_le (dropWhileLenLe _ _)
    · exact Nat.lt_succ_self _

/-- `url2fname` of `src/crates/base/src/util.rs`: like [`url2fname`] but it
additionally collapses runs of underscores (`__+` → `_`). Not used by
`ont_dir`. -/
def base_url2fname (s : String) : String :=
  ⟨collapseUnders (replaceNonBasic s.data)⟩

/-- `Path::join` for a relative second component. -/
def pathJoin (a b : String) : String := ⟨a.data ++ '/' :: b.data⟩

/-- `ont_file` of `src/src/cache.rs`: `<dir>/ontology.<canonical ext>`. -/
def ont_file (dir : String) (t : Ty) : String :=
  pathJoin dir ("ontology." ++ t.file_ext)

/-- The directory name `format!("{url_nameified}-{url_hash}")` built by
`ont_dir`. The 64-bit hash `hasher::hash_num` is modelled from the spec
(the `hasher` module is not under `src/`): an arbitrary deterministic 64-bit
hash of the URI string, rendered in decimal. -/
def ont_dir_name (hashNum : String → Fin (2 ^ 64)) (uri : String) : String :=
  url2fname uri ++ "-" ++ Nat.repr (hashNum uri).val

/-- `ont_dir` of `src/src/cache.rs`:
`<cache_root>/ontologies/<slug>-<hash>`. -/
def ont_dir (hashNum : String → Fin (2 ^ 64)) (cacheRoot uri : String) : String :=
  pathJoin (pathJoin cacheRoot "ontologies") (ont_dir_name hashNum uri)

/-- The relevant state of one filesystem path. -/
inductive PathState
  | absent
  | regularFile
  | directory
  | otherNode
  deriving DecidableEq

/-- `Path::try_exists` on a path in the given state. -/
def path_exists : PathState → Bool
  | .absent => false
  | _ => true

/-- `metadata(..).is_file()` on a path in the given state. -/
def metadata_is_file : PathState → Bool
  | .regularFile => true
  | _ => false

/-- `look_for_file` of `src/crates/base/src/util.rs` and `src/src/util.rs`:
an existing path that is not a regular file is an error; otherwise the
existence flag is returned. -/
def look_for_file (ps : PathState) : Except String Bool :=
  if path_exists ps && ! metadata_is_file ps then
    .error "Should be a file, but is not - possible solution: delete it"
  else
    .ok (path_exists ps)

/-- `look_for_ont_file` of `src/src/cache.rs`: the cache-hit check for the
expected cache path `ont_file dir t`, whose filesystem state is `ps`. -/
def look_for_ont_file (ps : PathState) (dir : String) (t : Ty) :
    Except String (Option String) :=
  (look_for_file ps).map fun ex => if ex then some (ont_file dir t) else none

/-! ## Downloader classification (`dl_ont` of `src/src/cache.rs`) -/

/-- Split a character list at its last occurrence of `sep`. -/
def splitAtLast (sep : Char) : List Char → List Char × Option (List Char)
  | [] => ([], none)
  | c :: cs =>
    match splitAtLast sep cs with
    | (rest, some sfx) => (c :: rest, some sfx)
    | (rest, none) => if c = sep then ([], some rest) else (c :: rest, none)

/-- `Path::file_name` of a unix path: the last component after ignoring
empty components (consecutive or trailing slashes) and `.` components, with
`none` when nothing remains or the path terminates in `..` — so a trailing
slash as in `/onto.ttl/` still yields `onto.ttl`. -/
def path_file_name (p : String) : Option (List Char) :=
  match ((splitOnChar '/' p.data).filter
      fun c => c ≠ [] ∧ c ≠ ['.']).getLast? with
  | none => none
  | some c => if c = ['.', '.'] then none else some c

/-- `extract_file_ext` (`Path::extension` of the URI path): the part of the
`Path::file_name` component after its last dot, unless there is no file
name, no dot, or the only dot is the leading character of the file name. -/
def extract_file_ext (p : String) : Option String :=
  match path_file_name p with
  | none => none
  | some comp =>
    match splitAtLast '.' comp with
    | (_, none) => none
    | (stem, some ext) => if stem = [] then none else some ⟨ext⟩

/-- The error kinds `dl_ont` maps to HTTP 500 responses during
classification. -/
inductive DlError
  | invalidContentType (s : String)
  | unrecognizedContentType (s : String)
  | unidentifiable
  deriving DecidableEq

/-- Whether a parse result is the could-be-any (`text/plain`) rejection. -/
def isCouldBeAny : Except ParseError Ty → Bool
  | .error (.CouldBeAny _) => true
  | _ => false

/-- The extension signal of `dl_ont`
(`url_file_ext_opt.and_then(|e| from_file_ext(e).ok())`): the URI path's
extension, if it maps to a known format. -/
def extSignal (uriPath : String) : Option Ty :=
  (extract_file_ext uriPath).bind fun fe => (Ty.from_file_ext fe).toOption

/-- The `Content-Type` signal of `dl_ont` (the computation of
`resp_rdf_mime_type_opt` in `src/src/cache.rs`): the header, when present,
is parsed and its essence looked up; an ambiguous (`text/plain`) result is
flattened to `Ok(None)` like an absent header, while an unparsable or
unrecognized header is an error. -/
def resp_mime_signal (respCtype : Option String) : Except DlError (Option Ty) :=
  match respCtype with
  | none => .ok none
  | some cts =>
    match mediaTypeParse cts with
    | none => .error (.invalidContentType cts)
    | some mt =>
      match Ty.from_media_type mt.essence with
      | .error (.CouldBeAny _) => .ok none
      | .error _ => .error (.unrecognizedContentType cts)
      | .ok t => .ok (some t)

/-- The format-classification logic of `dl_ont` (`src/src/cache.rs`), with
its I/O abstracted into inputs: the `Content-Type` header value (if any),
the URI path, the MIME string sniffed from the body by `infer::get` (if
any), and the client-supplied `query-accept` format hint (if any).
A silent (absent or ambiguous) header falls through to the URI-path
extension, then to content sniffing, then to the hint; an unparsable or
unrecognized header is an immediate error. -/
def dl_classify (respCtype : Option String) (uriPath : String)
    (sniffed : Option String) (queryMime : Option Ty) : Except DlError Ty :=
  match resp_mime_signal respCtype with
  | .error e => .error e
  | .ok (some t) => .ok t
  | .ok none =>
    match extSignal uriPath with
    | some t => .ok t
    | none =>
      match Ty.from_content sniffed with
      | .ok t => .ok t
      | .error _ =>
        match queryMime with
        | some q => .ok q
        | none => .error .unidentifiable

/-! ## Helper notions for the claims -/

/-- The formats whose canonical MIME string does not parse back to them:
`Hdt` and `RdfA` have no registry entry of their own (their canonical
strings belong to `RdfXml` and `Html`), `Microdata`, `OwlFunctional` and
`TriG` have canonical string constants that disagree with their registry
`MediaType` constants, and `NdJsonLd` has a registry constant whose subtype
embeds an unsplit plus sign. -/
def mimeRoundtripExceptions : List Ty :=
  [.Hdt, .Microdata, .NdJsonLd, .OwlFunctional, .RdfA, .TriG]

/-- The three formats sharing the canonical file extension `html`. -/
def htmlExtFormats : List Ty := [.Html, .Microdata, .RdfA]

/-- A string prepended on the left can be cancelled. -/
theorem strAppendCancelLeft (a : String) {b c : String}
    (h : a ++ b = a ++ c) : b = c := by
  have hd : a.data ++ b.data = a.data ++ c.data := by
    simpa [String.data_append] using congrArg String.data h
  exact String.ext (List.append_cancel_left hd)

/-- A path join can be cancelled on the right. -/
theorem pathJoinCancelRight (a : String) {b c : String}
    (h : pathJoin a b = pathJoin a c) : b = c := by
  have hd := congrArg String.data h
  simp only [pathJoin] at hd
  exact String.ext (by simpa using List.append_cancel_left hd)

/-! ## Claims -/

/-- C4: the rdfx backend claims support for the pair (Turtle, OWL/XML)
although `to_rdflib_format` has no name for OWL/XML, so building the
argument vector for that conversion reaches the panicking `expect` branch
(modelled as `none`). This contradicts the documented contract that
`supports` is false whenever either side is outside the backend's
coverage. -/
theorem rdfx_supports_outside_rdflib :
    ConverterId.supports .rdfx .Turtle .OwlXml = true ∧
    to_rdflib_format .OwlXml = none ∧
    rdfx_convert_args ⟨"cached.ttl", .Turtle⟩ ⟨"requested.owx", .OwlXml⟩ = none := by
  decide

/-- C5: the per-URI cache directory is `<root>/ontologies/<slug>-<hash>`,
where the slug replaces every character outside `[A-Za-z0-9]` by one
underscore each (so the slug keeps the length of the URI and consecutive
non-alphanumeric characters give consecutive underscores, as the concrete
example shows) and the hash is the decimal rendering of a 64-bit hash of the
URI string. -/
theorem ont_dir_slug_hash :
    ∀ (hashNum : String → Fin (2 ^ 64)) (root uri : String),
      ont_dir hashNum root uri =
        pathJoin (pathJoin root "ontologies") (ont_dir_name hashNum uri) ∧
      ont_dir_name hashNum uri =
        (⟨uri.data.map fun c => if isBasicChar c then c else '_'⟩ : String) ++
          "-" ++ Nat.repr (hashNum uri).val ∧
      (url2fname uri).length = uri.length ∧
      url2fname "http://example.org/o" = "http___example_org_o" := by
  have hmap : ∀ cs : List Char,
      replaceNonBasic cs = cs.map fun c => if isBasicChar c then c else '_' := by
    intro cs
    induction cs with
    | nil => rfl
    | cons c cs ih => simp [replaceNonBasic, ih]
  intro hashNum root uri
  refine ⟨rfl, ?_, ?_, by decide⟩
  · simp only [ont_dir_name, url2fname, hmap]
  · show (url2fname uri).data.length = uri.data.length
    simp [url2fname, hmap]

/-- C7 (amended): the canonical file extension of every format is among its
accepted extensions and, with case-insensitive lookup, parses back to the
format — except for `Microdata` and `RdfA`, whose canonical extension
`html` parses back to `Html`. -/
theorem file_ext_roundtrip_amended :
    (∀ F : Ty, F ≠ .Microdata → F ≠ .RdfA →
      Ty.from_file_ext (Ty.file_ext F) = .ok F) ∧
    Ty.from_file_ext (Ty.file_ext .Microdata) = .ok .Html ∧
    Ty.from_file_ext (Ty.file_ext .RdfA) = .ok .Html ∧
    (∀ F : Ty, Ty.file_ext F ∈ Ty.file_exts F) ∧
    Ty.from_file_ext "TTL" = .ok .Turtle := by
  decide

/-- C7 counterexample: the claimed extension round-trip fails at
`Microdata`, whose canonical extension parses back to `Html`. -/
theorem file_ext_roundtrip_microdata_cex :
    Ty.from_file_ext (Ty.file_ext .Microdata) = .ok .Html ∧
    Ty.Html ≠ .Microdata := by
  decide

/-- C7 witness: the amended round-trip at the concrete format `Turtle`. -/
theorem file_ext_roundtrip_amended_witness :
    Ty.from_file_ext (Ty.file_ext .Turtle) = .ok .Turtle :=
  file_ext_roundtrip_amended.1 .Turtle (by decide) (by decide)

/-- C9: `Type::star` is true exactly for `BinaryRdf`, `NTriplesStar`,
`TriGStar` and `TurtleStar`; in particular it is false for `NQuadsStar`
and true for `BinaryRdf`. -/
theorem star_formats :
    (∀ F : Ty, Ty.star F = true ↔
      (F = .BinaryRdf ∨ F = .NTriplesStar ∨ F = .TriGStar ∨ F = .TurtleStar)) ∧
    Ty.star .NQuadsStar = false ∧ Ty.star .BinaryRdf = true := by
  decide

/-- C10: `look_for_file` answers `Ok(true)` exactly for a regular file,
`Ok(false)` exactly for an absent path, and an error for every existing
non-file; hence the cache-hit check `look_for_ont_file` reports a cached
ontology path exactly when the expected cache path is a regular file. -/
theorem look_for_file_spec :
    ∀ ps : PathState,
      ((look_for_file ps = .ok true) ↔ ps = .regularFile) ∧
      ((look_for_file ps = .ok false) ↔ ps = .absent) ∧
      ((look_for_file ps).isOk ↔ (ps = .absent ∨ ps = .regularFile)) ∧
      (∀ (dir : String) (t : Ty),
        (look_for_ont_file ps dir t = .ok (some (ont_file dir t))) ↔
          ps = .regularFile) := by
  intro ps
  cases ps <;>
    simp [look_for_file, look_for_ont_file, path_exists, metadata_is_file,
      Except.isOk, Except.toBool, Except.map]

/-- C8: parsing a comma-separated Accept list returns the first element
(cut at its first semicolon) that parses to a known format; when no element
parses, the whole string is retried; concretely the two spec examples parse
to HTML and Turtle, and `text/plain` with or without parameters is rejected
as could-be-any. -/
theorem accept_list_parsing :
    Ty.from_str "text/html,application/xhtml+xml,application/xml;q=0.9" =
      .ok .Html ∧
    Ty.from_str "application/x-unknown,text/turtle" = .ok .Turtle ∧
    isCouldBeAny (Ty.from_str "text/plain") = true ∧
    isCouldBeAny (Ty.from_str "text/plain; charset=utf-8") = true ∧
    (∀ (e : List Char) (rest : List (List Char)) (t : Ty),
      Ty.from_mime_type ⟨e.takeWhile (· ≠ ';')⟩ = .ok t →
      Ty.fromStrAux (e :: rest) = some t) ∧
    (∀ (e : List Char) (rest : List (List Char)) (err : ParseError),
      Ty.from_mime_type ⟨e.takeWhile (· ≠ ';')⟩ = .error err →
      Ty.fromStrAux (e :: rest) = Ty.fromStrAux rest) ∧
    (∀ s : String, Ty.fromStrAux (splitOnChar ',' s.data) = none →
      Ty.from_str s = Ty.from_mime_type s) ∧
    (∀ (s : String) (t : Ty), Ty.fromStrAux (splitOnChar ',' s.data) = some t →
      Ty.from_str s = .ok t) := by
  refine ⟨by decide, by decide, by decide, by decide, ?_, ?_, ?_, ?_⟩
  · intro e rest t h
    simp only [ne_eq, decide_not] at h
    simp [Ty.fromStrAux, h]
  · intro e rest err h
    simp only [ne_eq, decide_not] at h
    simp [Ty.fromStrAux, h]
  · intro s h
    simp [Ty.from_str, h]
  · intro s t h
    simp [Ty.from_str, h]

/-- C8 witness: the first-element rule applied at a concrete singleton
list. -/
theorem accept_list_parsing_witness :
    Ty.fromStrAux ["text/turtle".data] = some .Turtle :=
  accept_list_parsing.2.2.2.2.1 "text/turtle".data [] .Turtle (by decide)

/-- C1 (amended): `select(F, F)` returns `NoConversionRequired` for every
machine-readable `F`; for non-machine-readable `F`, `select(F, G)` returns
`NonMachineReadableSource` for every `G`, including `G = F` (the
machine-readability check comes first in the source); otherwise `select`
returns the first converter supporting the pair with `available() = true`,
or `NoConverter`. Quantified over every availability environment and over
both states of the `oxrdfio` feature. -/
theorem select_converter_dispatch_totality :
    (∀ (avail : String → Bool) (ox : Bool) (fromF toF : OntFile),
      fromF.mime_type.is_machine_readable = true →
      fromF.mime_type = toF.mime_type →
      select_converter avail ox fromF toF = .error .NoConversionRequired) ∧
    (∀ (avail : String → Bool) (ox : Bool) (fromF toF : OntFile),
      fromF.mime_type.is_machine_readable = false →
      select_converter avail ox fromF toF =
        .error (.NonMachineReadableSource fromF.mime_type)) ∧
    (∀ (avail : String → Bool) (ox : Bool) (fromF toF : OntFile),
      fromF.mime_type.is_machine_readable = true →
      fromF.mime_type ≠ toF.mime_type →
      (∃ c, select_converter avail ox fromF toF = .ok c ∧
        c.supports fromF.mime_type toF.mime_type = true ∧
        c.is_available avail = true) ∨
      select_converter avail ox fromF toF =
        .error (.NoConverter fromF.mime_type toF.mime_type)) := by
  refine ⟨?_, ?_, ?_⟩
  · intro avail ox fromF toF hm he
    have hm2 : toF.mime_type.is_machine_readable = true := he ▸ hm
    simp [select_converter, hm, hm2, he]
  · intro avail ox fromF toF hm
    simp [select_converter, hm]
  · intro avail ox fromF toF hm hne
    cases hf : (converters ox).find?
        (fun c => c.supports fromF.mime_type toF.mime_type &&
          c.is_available avail) with
    | some c =>
      left
      have hp := List.find?_some hf
      rw [Bool.and_eq_true] at hp
      exact ⟨c, by simp [select_converter, hm, hne, hf], hp.1, hp.2⟩
    | none =>
      right
      simp [select_converter, hm, hne, hf]

/-- C1 counterexample: for the non-machine-readable format `Html`,
`select(Html, Html)` is `NonMachineReadableSource`, not the claimed
`NoConversionRequired`. -/
theorem select_converter_self_html_cex :
    select_converter (fun _ => true) true ⟨"a.html", .Html⟩ ⟨"a.html", .Html⟩ =
      .error (.NonMachineReadableSource .Html) ∧
    select_converter (fun _ => true) true ⟨"a.html", .Html⟩ ⟨"a.html", .Html⟩ ≠
      .error .NoConversionRequired := by
  decide

/-- C1 witness: the dispatch alternative at the concrete pair
(Turtle, N-Triples) with every command available and the OxRDF backend
enabled. -/
theorem select_converter_dispatch_totality_witness :
    (∃ c, select_converter (fun _ => true) true ⟨"a.ttl", Ty.Turtle⟩
        ⟨"b.nt", Ty.NTriples⟩ = .ok c ∧
      c.supports Ty.Turtle Ty.NTriples = true ∧
      c.is_available (fun _ => true) = true) ∨
    select_converter (fun _ => true) true ⟨"a.ttl", Ty.Turtle⟩
        ⟨"b.nt", Ty.NTriples⟩ =
      .error (.NoConverter Ty.Turtle Ty.NTriples) :=
  select_converter_dispatch_totality.2.2 (fun _ => true) true
    ⟨"a.ttl", Ty.Turtle⟩ ⟨"b.nt", Ty.NTriples⟩ (by decide) (by decide)

/-- C2 (amended): every format's canonical MIME string is a member of its
accepted list, and parsing round-trips hold — except that the canonical
strings of `Hdt`, `Microdata`, `NdJsonLd`, `OwlFunctional`, `RdfA` and
`TriG` do not parse back to their format, and additionally the accepted
alias `application/json-ld` of `JsonLd` does not parse. -/
theorem mime_roundtrip_amended :
    (∀ F : Ty, F ∉ mimeRoundtripExceptions →
      Ty.from_str (Ty.mime_type F) = .ok F) ∧
    (∀ F : Ty, Ty.mime_type F ∈ Ty.mime_types F) ∧
    (∀ F : Ty, F ∉ mimeRoundtripExceptions → F ≠ .JsonLd →
      ∀ m ∈ Ty.mime_types F, Ty.from_str m = .ok F) := by
  decide

/-- C2 counterexample: the canonical MIME string of `Hdt` parses back to
`RdfXml`, not `Hdt` (and `text/trig`, the canonical string of `TriG`, does
not parse at all). -/
theorem mime_roundtrip_hdt_cex :
    Ty.from_str (Ty.mime_type .Hdt) = .ok .RdfXml ∧ Ty.RdfXml ≠ .Hdt ∧
    Ty.from_str (Ty.mime_type .TriG) =
      .error (.UnrecognizedContentType "text/trig") := by
  decide

/-- C2 witness: the amended round-trip at the concrete format `Turtle`. -/
theorem mime_roundtrip_amended_witness :
    Ty.from_str (Ty.mime_type .Turtle) = .ok .Turtle :=
  mime_roundtrip_amended.1 .Turtle (by decide)

/-- C3 (amended): within one cache directory, distinct formats give
distinct cache file paths — except among `Html`, `Microdata` and `RdfA`,
which share the canonical extension `html` and hence the path. -/
theorem ont_file_injective_amended :
    ∀ (d : String) (F G : Ty), F ≠ G →
      ¬(F ∈ htmlExtFormats ∧ G ∈ htmlExtFormats) →
      ont_file d F ≠ ont_file d G := by
  have hext : ∀ F G : Ty, F ≠ G →
      ¬(F ∈ htmlExtFormats ∧ G ∈ htmlExtFormats) →
      Ty.file_ext F ≠ Ty.file_ext G := by decide
  intro d F G hne hh heq
  have h1 : ("ontology." ++ Ty.file_ext F) = ("ontology." ++ Ty.file_ext G) :=
    pathJoinCancelRight d heq
  exact hext F G hne hh (strAppendCancelLeft "ontology." h1)

/-- C3 counterexample: `Html` and `Microdata` are distinct formats with the
same cache file path. -/
theorem ont_file_injective_cex :
    ont_file "dir" .Html = ont_file "dir" .Microdata ∧
    Ty.Html ≠ .Microdata := by
  decide

/-- C3 witness: distinct paths at the concrete pair (Turtle, N-Triples). -/
theorem ont_file_injective_amended_witness :
    ont_file "dir" .Turtle ≠ ont_file "dir" .NTriples :=
  ont_file_injective_amended "dir" .Turtle .NTriples (by decide) (by decide)

/-- C6: the downloader classifies the body by consulting, in order, the
`Content-Type` header (silent exactly when absent or ambiguous; an
unparsable or unrecognized header is an immediate error), then the URI
path's file extension, then content sniffing, then the client `query-accept`
hint, and fails only when all of them are silent; each later signal is
consulted only when all earlier ones produced no format, and the
extension/sniff/hint/error stages are proved under every silent header,
absent or ambiguous alike. -/
theorem dl_ont_classification_order :
    (∀ (cts : String) (mt : MediaType) (t : Ty) (path : String)
        (sn : Option String) (q : Option Ty),
      mediaTypeParse cts = some mt →
      Ty.from_media_type mt.essence = .ok t →
      dl_classify (some cts) path sn q = .ok t) ∧
    (resp_mime_signal none = .ok none) ∧
    (∀ (cts : String) (mt : MediaType) (s : String),
      mediaTypeParse cts = some mt →
      Ty.from_media_type mt.essence = .error (.CouldBeAny s) →
      resp_mime_signal (some cts) = .ok none) ∧
    (∀ cts : String, resp_mime_signal (some cts) = .ok none →
      ∃ mt s, mediaTypeParse cts = some mt ∧
        Ty.from_media_type mt.essence = .error (.CouldBeAny s)) ∧
    (∀ (cts path : String) (sn : Option String) (q : Option Ty),
      mediaTypeParse cts = none →
      dl_classify (some cts) path sn q = .error (.invalidContentType cts)) ∧
    (∀ (cts : String) (mt : MediaType) (e : ParseError) (path : String)
        (sn : Option String) (q : Option Ty),
      mediaTypeParse cts = some mt →
      Ty.from_media_type mt.essence = .error e →
      isCouldBeAny (.error e) = false →
      dl_classify (some cts) path sn q =
        .error (.unrecognizedContentType cts)) ∧
    (∀ (rc : Option String) (path : String) (sn : Option String)
        (q : Option Ty) (t : Ty),
      resp_mime_signal rc = .ok none →
      extSignal path = some t →
      dl_classify rc path sn q = .ok t) ∧
    (∀ (rc : Option String) (path : String) (sn : Option String)
        (q : Option Ty) (t : Ty),
      resp_mime_signal rc = .ok none →
      extSignal path = none →
      Ty.from_content sn = .ok t →
      dl_classify rc path sn q = .ok t) ∧
    (∀ (rc : Option String) (path : String) (sn : Option String)
        (e : ParseError) (q : Ty),
      resp_mime_signal rc = .ok none →
      extSignal path = none →
      Ty.from_content sn = .error e →
      dl_classify rc path sn (some q) = .ok q) ∧
    (∀ (rc : Option String) (path : String) (sn : Option String)
        (e : ParseError),
      resp_mime_signal rc = .ok none →
      extSignal path = none →
      Ty.from_content sn = .error e →
      dl_classify rc path sn none = .error .unidentifiable) := by
  refine ⟨?_, rfl, ?_, ?_, ?_, ?_, ?_, ?_, ?_, ?_⟩
  · intro cts mt t path sn q h1 h2
    simp [dl_classify, resp_mime_signal, h1, h2]
  · intro cts mt s h1 h2
    simp [resp_mime_signal, h1, h2]
  · intro cts h
    simp only [resp_mime_signal] at h
    cases hp : mediaTypeParse cts with
    | none => simp [hp] at h
    | some mt =>
      cases hm : Ty.from_media_type mt.essence with
      | ok t => simp [hp, hm] at h
      | error e =>
        cases e with
        | CouldBeAny s => exact ⟨mt, s, rfl, hm⟩
        | UnrecognizedContentType s => simp [hp, hm] at h
        | InvalidFormat s => simp [hp, hm] at h
        | UnrecognizedFileExtension s => simp [hp, hm] at h
        | NoFileExtension p => simp [hp, hm] at h
        | NoKnownFileExtensionAndReadError p e => simp [hp, hm] at h
        | UnrecognizedContent s => simp [hp, hm] at h
        | UnidentifiedContent => simp [hp, hm] at h
  · intro cts path sn q h
    simp [dl_classify, resp_mime_signal, h]
  · intro cts mt e path sn q h1 h2 h3
    cases e <;> simp_all [dl_classify, resp_mime_signal, isCouldBeAny]
  · intro rc path sn q t h1 h2
    simp [dl_classify, h1, h2]
  · intro rc path sn q t h1 h2 h3
    simp [dl_classify, h1, h2, h3]
  · intro rc path sn e q h1 h2 h3
    simp [dl_classify, h1, h2, h3]
  · intro rc path sn e h1 h2 h3
    simp [dl_classify, h1, h2, h3]

/-- C6 witness: a recognized `Content-Type` header decides the format at a
concrete input, regardless of the other signals. -/
theorem dl_ont_classification_order_witness :
    dl_classify (some "text/turtle") "" none none = .ok .Turtle :=
  dl_ont_classification_order.1 "text/turtle" (mkMT "text" "turtle")
    .Turtle "" none none (by decide) (by decide)

end Rdfoothills
